import Mathlib

/-!
Verification development for the PaperRouter repository (LOC newspaper
downloader).  The definitions below are a shallow embedding of the Python
source under `src/`:

* `src/downloader.py`   — `DownloadManager` (metadata store, file integrity,
  per-page download, issue download, issue discovery loop);
* `src/sources/loc_source.py` — `LOCSource` (issue discovery, per-page PDF
  download, title search, Tier-1 text post-processing);
* `src/sources/base.py` — dataclasses (`TitleResult` etc.);
* `src/ocr_engine.py`   — `LOCTextFetcher._postprocess_loc_text`;
* `src/harness.py`      — process supervisor (`monitor`, `kill_tree`,
  PID marker file, `--kill` mode).

Modelling conventions:

* Byte strings are `List Nat`; the filesystem is a partial map
  `String → Option (List Nat)` keyed by the path strings the code builds
  (paths relative to the output directory).  Directories, clocks and logging
  are not modelled (they do not affect any verified property).
* The HTTP layer is an oracle `String → HttpResp`; a response is either a
  request-level failure (exception from `session.get` / `raise_for_status`)
  or a body given as the list of chunks received, with a flag telling
  whether the stream raised after those chunks.
* Python `str` values are Lean `String`s; Python string comparison is the
  codepoint-lexicographic order `lexLt` on `String.data` (identical to
  Python's `<` on ASCII data).
* Python's stable `list.sort(key=...)` is modelled by the stable insertion
  sort `sSort` (any two stable sorts w.r.t. the same total preorder agree
  elementwise, so this is extensionally faithful).
-/

/-! ## Small string / list helpers (models of the Python primitives used) -/

/-- Codepoint-lexicographic strict order on character lists: the model of
Python's `<` on strings. -/
def lexLt : List Char → List Char → Bool
  | [], [] => false
  | [], _ :: _ => true
  | _ :: _, [] => false
  | a :: as, b :: bs =>
    if a.toNat < b.toNat then true
    else if b.toNat < a.toNat then false
    else lexLt as bs

/-- Python whitespace as stripped by `str.strip()`. -/
def isPySpace (c : Char) : Bool :=
  c == ' ' || c == '\t' || c == '\n' || c == '\r' ||
  c == Char.ofNat 11 || c == Char.ofNat 12

/-- Model of Python `str.strip()` on a line given as a character list. -/
def pyStrip (l : List Char) : List Char :=
  ((l.dropWhile isPySpace).reverse.dropWhile isPySpace).reverse

/-- Model of Python `str.rstrip('/')`. -/
def rstripSlash (l : List Char) : List Char :=
  (l.reverse.dropWhile (· == '/')).reverse

/-- Model of Python `str.strip().rstrip('.')` (used on titles). -/
def stripTitle (l : List Char) : List Char :=
  ((pyStrip l).reverse.dropWhile (· == '.')).reverse

/-- Model of Python `int(...)` restricted to the digit strings that occur in
the data handled here (no sign, no surrounding whitespace); returns `none`
exactly where Python raises `ValueError`. -/
def digitsToNat? (l : List Char) : Option Nat :=
  if l ≠ [] && l.all Char.isDigit then
    some (l.foldl (fun acc c => acc * 10 + (c.toNat - 48)) 0)
  else none

/-- Model of Python `'%02d' % n` zero padding used in page file names. -/
def pad2 (n : Nat) : String :=
  if n < 10 then "0" ++ toString n else toString n

/-- Model of `url.split('/ed-')` (`str.split` with a literal separator,
specialised to the separator the code uses). -/
def splitEd : List Char → List (List Char)
  | '/' :: 'e' :: 'd' :: '-' :: rest => [] :: splitEd rest
  | c :: rest =>
    match splitEd rest with
    | h :: t => (c :: h) :: t
    | [] => [[c]]
  | [] => [[]]

/-- Model of Python `str.split('\n')` (keeps empty pieces). -/
def splitNl : List Char → List (List Char)
  | [] => [[]]
  | '\n' :: rest => [] :: splitNl rest
  | c :: rest =>
    match splitNl rest with
    | h :: t => (c :: h) :: t
    | [] => [[c]]

/-- Model of `'\n'.join(lines)`. -/
def joinNl : List (List Char) → List Char
  | [] => []
  | [l] => l
  | l :: rest => l ++ '\n' :: joinNl rest

/-- Adjacent-pairs check: `adjacentAll r l` holds when every two list
elements at adjacent positions satisfy `r`. -/
def adjacentAll (r : α → α → Bool) : List α → Bool
  | [] => true
  | [_] => true
  | a :: b :: rest => r a b && adjacentAll r (b :: rest)

/-- Stable insertion of one element (helper of `sSort`). -/
def sIns (le : α → α → Bool) (a : α) : List α → List α
  | [] => [a]
  | b :: l => if le a b then a :: b :: l else b :: sIns le a l

/-- Stable sort w.r.t. a boolean total preorder: the model of Python's
stable `list.sort(key=...)` (ties keep their input order). -/
def sSort (le : α → α → Bool) : List α → List α
  | [] => []
  | a :: l => sIns le a (sSort le l)

/-! ## Filesystem model -/

/-- File contents as bytes. -/
abbrev Bytes := List Nat

/-- The filesystem visible to the downloader: a partial map from path
strings to file contents. -/
def FS : Type := String → Option Bytes

/-- Write (create or truncate-and-write) a file. -/
def fsSet (fs : FS) (p : String) (c : Bytes) : FS :=
  fun q => if q = p then some c else fs q

/-- `Path.unlink`: remove a file. -/
def fsDel (fs : FS) (p : String) : FS :=
  fun q => if q = p then none else fs q

/-- The `%PDF-` signature bytes checked by `_is_file_complete`
(`downloader.py` line 355). -/
def pdfMagic : Bytes := [37, 80, 68, 70, 45]

/-- Truthiness of the optional `expected_size` argument
(`if expected_size and ...` skips the check for `None` and for `0`). -/
def natTruthy : Option Nat → Bool
  | none => false
  | some 0 => false
  | some (_ + 1) => true

/-- Model of `DownloadManager._is_file_complete` (`downloader.py`
lines 340-360): exists, at least 1000 bytes, matches `expected_size` when
that is truthy, and starts with the `%PDF-` signature. -/
def isFileComplete (fs : FS) (path : String) (expectedSize : Option Nat) : Bool :=
  match fs path with
  | none => false
  | some c =>
    if c.length < 1000 then false
    else if natTruthy expectedSize && c.length != expectedSize.getD 0 then false
    else if c.take 5 != pdfMagic then false
    else true

/-! ## HTTP model -/

/-- An HTTP GET outcome as seen by the downloader.  `fail` covers request
exceptions and `raise_for_status`; `ok` carries whether the content-type is
`text/html`, the chunks received from `iter_content`, and whether the
stream raised an exception after delivering those chunks. -/
inductive HttpResp where
  | fail : HttpResp
  | ok (isHtml : Bool) (chunks : List Bytes) (midErr : Bool) : HttpResp

/-- Concatenated body of the received chunks (`f.write(chunk)` accumulation;
empty chunks are skipped by `if chunk:` but contribute nothing anyway). -/
def chunksBytes (chunks : List Bytes) : Bytes := chunks.foldl (· ++ ·) []

/-! ## `DownloadManager._download_file` (`downloader.py` lines 522-595) -/

/-- `output_path.with_suffix('.tmp')`: the temporary path used while
streaming.  (`with_suffix` swaps the `.pdf` extension for `.tmp`; only its
distinctness from the destination matters here, so the model appends.) -/
def tempOf (p : String) : String := p ++ ".tmp"

/-- Result of `_download_file`: success flag, resulting filesystem, and
whether a network request was performed (false only for the
already-complete short-circuit). -/
structure DlFileRes where
  ok : Bool
  fs : FS
  fetched : Bool

/-- Network part of `_download_file`, entered after the pre-existing-file
check (`downloader.py` lines 538-595). -/
def downloadFileNet (oracle : String → HttpResp) (fs : FS) (url : String)
    (path : String) : DlFileRes :=
  match oracle url with
  | .fail => ⟨false, fs, true⟩
  | .ok isHtml chunks midErr =>
    if isHtml then ⟨false, fs, true⟩
    else
      let body := chunksBytes chunks
      -- `open(temp_path, 'wb')` creates the file; chunks received so far
      -- are in it when the stream raises.
      let fs1 := fsSet fs (tempOf path) body
      if midErr then ⟨false, fsDel fs1 (tempOf path), true⟩
      else if body.length = 0 then ⟨false, fsDel fs1 (tempOf path), true⟩
      else ⟨true, fsSet (fsDel fs1 (tempOf path)) path body, true⟩

/-- Model of `DownloadManager._download_file`: pre-check of an existing
destination (skip when complete, unlink when invalid), then stream to the
temporary path and rename into place on success.  An `expected_size`
mismatch after download only logs a warning (lines 573-577) and does not
fail the call. -/
def downloadFile (oracle : String → HttpResp) (fs : FS) (url : String)
    (path : String) (expectedSize : Option Nat) : DlFileRes :=
  match fs path with
  | some _ =>
    if isFileComplete fs path expectedSize then ⟨true, fs, false⟩
    else downloadFileNet oracle (fsDel fs path) url path
  | none => downloadFileNet oracle fs url path

/-! ## `LOCSource.download_page_pdf` (`loc_source.py` lines 207-259) -/

/-- The page fields `download_page_pdf` reads. -/
structure PageRef where
  url : String
  pdfUrl : String

/-- Parsed issue-page JSON used to resolve a missing `pdf_url`
(`resource.pdf`, else the first `application/pdf` entry of `files`). -/
structure PdfMeta where
  resourcePdf : Option String
  filesPdf : Option String

/-- `DownloadResult` projection relevant here, plus the filesystem. -/
structure PdfDlRes where
  success : Bool
  sizeBytes : Nat
  fs : FS

/-- URL normalisation at `loc_source.py` lines 240-244 (`//` and `/`
prefixed URLs). -/
def normalizeUrl (u : String) : String :=
  if ("//".data).isPrefixOf u.data then "https:" ++ u
  else if ("/".data).isPrefixOf u.data then "https://www.loc.gov" ++ u
  else u

/-- Streaming part of `download_page_pdf` (lines 238-259): note that the
body is written directly to `dest_path` — no temporary file, no
content-type check, no zero-byte check. -/
def downloadPagePdfNet (oracle : String → HttpResp) (pdfUrl : String)
    (dest : String) (fs : FS) : PdfDlRes :=
  match oracle (normalizeUrl pdfUrl) with
  | .fail => ⟨false, 0, fs⟩
  | .ok _isHtml chunks midErr =>
    let body := chunksBytes chunks
    let fs1 := fsSet fs dest body
    if midErr then ⟨false, 0, fs1⟩
    else ⟨true, body.length, fs1⟩

/-- Model of `LOCSource.download_page_pdf`: lazy `pdf_url` resolution via a
metadata fetch (`metaResp = none` models the fetch raising), then the
direct-to-destination streaming above. -/
def downloadPagePdf (oracle : String → HttpResp) (metaResp : Option PdfMeta)
    (page : PageRef) (dest : String) (fs : FS) : PdfDlRes :=
  if page.pdfUrl = "" then
    match metaResp with
    | none => ⟨false, 0, fs⟩
    | some m =>
      let url := (m.resourcePdf.orElse fun _ => m.filesPdf).getD
        (String.mk (rstripSlash page.url.data) ++ ".pdf")
      downloadPagePdfNet oracle url dest fs
  else downloadPagePdfNet oracle page.pdfUrl dest fs

/-! ## Metadata store model (`download_metadata.json`) -/

/-- One entry of a downloaded record's `pages` list:
`(page, file (relative path), size)`. -/
structure PageEntry where
  page : Nat
  file : String
  size : Nat
deriving DecidableEq

/-- A `downloaded` record as written by `download_issue`
(`downloader.py` lines 710-719).  `complete` is optional because
`_is_download_verified` reads it with `.get('complete', True)`; records
written by this code always carry it.  `downloaded_at` is not modelled
(no clock). -/
structure DlRec where
  date : String
  edition : Nat
  pages : List PageEntry
  totalPages : Nat
  downloadedPages : Nat
  complete : Option Bool
  file : String
deriving DecidableEq

/-- A `failed` record (`downloader.py` lines 673-679 / 729-735);
`failed_at` is not modelled. -/
structure FailRec where
  date : String
  edition : Nat
  reason : String
deriving DecidableEq

/-- Association-list lookup: model of Python `dict.get` (keys are unique in
every state the code builds). -/
def alookup : List (String × β) → String → Option β
  | [], _ => none
  | (k', v') :: t, k => if k' = k then some v' else alookup t k

/-- Model of `dict[k] = v` (replace or append). -/
def aset : List (String × β) → String → β → List (String × β)
  | [], k, v => [(k, v)]
  | (k', v') :: t, k, v =>
    if k' = k then (k, v) :: t else (k', v') :: aset t k v

/-- Model of `del dict[k]` / `dict.pop(k, None)`. -/
def aerase (l : List (String × β)) (k : String) : List (String × β) :=
  l.filter (fun p => p.1 ≠ k)

/-- The persisted metadata state: `downloaded` and `failed` maps plus the
top-level `lccn` field (`newspaper_title` is irrelevant to the claims and
omitted). -/
structure Metadata where
  downloaded : List (String × DlRec)
  failed : List (String × FailRec)
  lccn : String
deriving DecidableEq

/-- The fresh empty state produced by `_load_metadata`'s fallback
(`downloader.py` line 320). -/
def freshMeta (lccn : String) : Metadata := ⟨[], [], lccn⟩

/-- What reading a JSON state file can yield: the file is absent, it exists
but raises (`IOError` / `json.JSONDecodeError`), or it parses. -/
inductive FileRead where
  | absent : FileRead
  | corrupt : FileRead
  | parsed (st : Metadata) : FileRead

/-- Model of `DownloadManager._load_metadata` (`downloader.py` lines
304-320): parse the canonical file if it exists; only on an existing but
unreadable/unparseable canonical file try the backup; otherwise (including
a missing canonical file) return the fresh empty state. -/
def loadMetadata (canonical backup : FileRead) (lccn : String) : Metadata :=
  match canonical with
  | .parsed st => st
  | .corrupt =>
    match backup with
    | .parsed st => st
    | _ => freshMeta lccn
  | .absent => freshMeta lccn

/-! ## `DownloadManager._is_download_verified` (lines 597-652) -/

/-- The page list checked by `_is_download_verified`: the record's `pages`,
or, for a legacy single-file entry, a singleton built from its `file` key
(only the `file` field is read in the loop). -/
def effPages (rec : DlRec) : List PageEntry :=
  if rec.pages.isEmpty then
    (if rec.file ≠ "" then [⟨0, rec.file, 0⟩] else [])
  else rec.pages

/-- One step of the missing-or-corrupt scan (`downloader.py` lines
618-628): accumulate bad page files; a corrupt (existing but invalid) file
is unlinked so it will be re-downloaded. -/
def scanPage (acc : List String × FS) (pi : PageEntry) : List String × FS :=
  match acc.2 pi.file with
  | none => (acc.1 ++ [pi.file], acc.2)
  | some _ =>
    if isFileComplete acc.2 pi.file none then acc
    else (acc.1 ++ [pi.file], fsDel acc.2 pi.file)

/-- Model of `_is_download_verified`: true only when a record exists, every
recorded page file exists and passes `_is_file_complete`, and the record
is not marked incomplete; otherwise the record is deleted from `downloaded`
(when present) and false is returned. -/
def isDownloadVerified (md : Metadata) (fs : FS) (issueId : String) :
    Bool × Metadata × FS :=
  match alookup md.downloaded issueId with
  | none => (false, md, fs)
  | some rec =>
    let (bad, fs') := (effPages rec).foldl scanPage ([], fs)
    if ¬ bad.isEmpty then
      (false, { md with downloaded := aerase md.downloaded issueId }, fs')
    else if rec.complete.getD true = false then
      (false, { md with downloaded := aerase md.downloaded issueId }, fs')
    else (true, md, fs')

/-! ## `DownloadManager.download_issue` (lines 654-739) -/

/-- The issue dict built by discovery (`date`, `edition`, `item_url`,
`year`). -/
structure IssueInput where
  date : String
  edition : Nat
  itemUrl : String
  year : Nat
deriving DecidableEq

/-- `issue_id = f"{issue['date']}_ed-{issue['edition']}"`. -/
def issueIdOf (i : IssueInput) : String :=
  i.date ++ "_ed-" ++ toString i.edition

/-- Relative path of a page artifact:
`{year}/{lccn}_{issue_id}_page{page:02d}.pdf` (line 689 together with the
year directory of line 665 and `relative_to(output_dir)` of line 700). -/
def pageFilePath (lccn : String) (i : IssueInput) (page : Nat) : String :=
  toString i.year ++ "/" ++ lccn ++ "_" ++ issueIdOf i ++ "_page" ++
    pad2 page ++ ".pdf"

/-- One element of the list `_get_pdf_urls_for_issue` returns. -/
structure PdfInfo where
  url : String
  size : Option Nat
  page : Nat

/-- Environment of one `download_issue` call: the parsed result of the
`_get_pdf_urls_for_issue` network call and the HTTP oracle used by the
per-page `_download_file` calls. -/
structure IssueEnv where
  pdfFiles : List PdfInfo
  oracle : String → HttpResp

/-- Outcome of `download_issue`: its boolean result, the new metadata and
filesystem, and how many page-level network fetches `_download_file`
performed. -/
structure IssueOutcome where
  ok : Bool
  md : Metadata
  fs : FS
  pageFetches : Nat

/-- Per-page step of the download loop (`downloader.py` lines 687-707).
State: filesystem, recorded successful pages, `all_success`, fetch count. -/
def downloadPageStep (lccn : String) (issue : IssueInput)
    (oracle : String → HttpResp)
    (acc : FS × List PageEntry × Bool × Nat) (pi : PdfInfo) :
    FS × List PageEntry × Bool × Nat :=
  let (fs, pages, allOk, fetches) := acc
  let path := pageFilePath lccn issue pi.page
  let r := downloadFile oracle fs pi.url path pi.size
  let fetches := fetches + (if r.fetched then 1 else 0)
  if r.ok then
    (r.fs, pages ++ [⟨pi.page, path, ((r.fs path).getD []).length⟩], allOk,
     fetches)
  else (r.fs, pages, false, fetches)

/-- Model of `DownloadManager.download_issue`: skip when verified;
otherwise fail on an empty PDF list, else download each page, and record
either a downloaded record (removing any failure entry) or a failure
record. -/
def downloadIssue (lccn : String) (issue : IssueInput) (env : IssueEnv)
    (md : Metadata) (fs : FS) : IssueOutcome :=
  let issueId := issueIdOf issue
  match isDownloadVerified md fs issueId with
  | (true, md1, fs1) => ⟨true, md1, fs1, 0⟩
  | (false, md1, fs1) =>
    if env.pdfFiles.isEmpty then
      let frec : FailRec := ⟨issue.date, issue.edition, "no_pdf_files_found"⟩
      ⟨false, { md1 with failed := aset md1.failed issueId frec }, fs1, 0⟩
    else
      let (fs2, pages, allOk, fetches) :=
        env.pdfFiles.foldl (downloadPageStep lccn issue env.oracle)
          (fs1, [], true, 0)
      if pages.isEmpty then
        let frec : FailRec :=
          ⟨issue.date, issue.edition, "all_page_downloads_failed"⟩
        ⟨false, { md1 with failed := aset md1.failed issueId frec }, fs2,
         fetches⟩
      else
        let drec : DlRec :=
          ⟨issue.date, issue.edition, pages, env.pdfFiles.length,
           pages.length, some allOk, ((pages.head?.map PageEntry.file).getD "")⟩
        ⟨true,
         { md1 with downloaded := aset md1.downloaded issueId drec,
                    failed := aerase md1.failed issueId },
         fs2, fetches⟩

/-! ## Issue discovery: `DownloadManager._fetch_newspaper_issues`
(`downloader.py` lines 366-445) -/

/-- The fields of one `results` item read by discovery. -/
structure RawItem where
  date : String
  title : String
  url : String
  id : String

/-- One discovery page as the code sees it after the `try` block: either a
request/JSON failure, or a parsed body with its `results` items and the
`pagination['next']` pointer. -/
inductive FetchResult where
  | err : FetchResult
  | ok (results : List RawItem) (next : Option String) : FetchResult

/-- Edition number parsed from the issue locator
(`downloader.py` lines 421-427 and `loc_source.py` lines 104-110):
the segment after the first `/ed-`, with trailing slashes stripped, parsed
as an integer; anything malformed (or no `/ed-` at all) gives edition 1. -/
def editionOf (url : String) : Nat :=
  match splitEd url.data with
  | _ :: second :: _ =>
    match digitsToNat? (rstripSlash second) with
    | some n => n
    | none => 1
  | _ => 1

/-- Scan state of the discovery loop: the resolved newspaper title and the
issues accumulated so far. -/
structure ScanState where
  title : String
  issues : List IssueInput

/-- Model of the per-item body of `_fetch_newspaper_issues`
(`downloader.py` lines 400-434): short-dated items may only refresh the
title; issue items are year-filtered (an empty `yearSet` means no filter,
matching the falsy `None`/empty set), need a locator, and get a parsed
edition. -/
def scanStep (lccn : String) (yearSet : List Nat) (st : ScanState)
    (item : RawItem) : ScanState :=
  if item.date = "" || item.date.length < 8 then
    let t := String.mk (stripTitle item.title.data)
    if t ≠ "" && st.title = lccn then { st with title := t } else st
  else
    match digitsToNat? (item.date.data.take 4) with
    | none => st
    | some year =>
      if !(yearSet.isEmpty || yearSet.contains year) then st
      else
        let itemUrl := if item.url ≠ "" then item.url else item.id
        if itemUrl = "" then st
        else
          { st with issues :=
              st.issues ++ [⟨item.date, editionOf itemUrl, itemUrl, year⟩] }

/-- Date-only comparison used by `all_issues.sort(key=lambda x: x['date'])`
(`downloader.py` line 443). -/
def leDateB (a b : IssueInput) : Bool := !(lexLt b.date.data a.date.data)

/-- The `(date, edition)` ascending-order relation of the claim, on the
downloader's issue dicts. -/
def dateEdLeI (a b : IssueInput) : Bool :=
  lexLt a.date.data b.date.data ||
    (a.date == b.date && Nat.ble a.edition b.edition)

/-- Model of the `while api_url:` pagination loop of
`_fetch_newspaper_issues`, with fuel counting loop iterations.  Crucially,
the two `except` branches (lines 388-395) log, rate-limit and `continue`
WITHOUT changing `api_url`, so a failed page is refetched; `none` means the
fuel was exhausted with the loop still running. -/
def fetchLoop (net : String → FetchResult) (lccn : String)
    (yearSet : List Nat) : Nat → Option String → ScanState →
    Option (List IssueInput)
  | _, none, st => some (sSort leDateB st.issues)
  | 0, some _, _ => none
  | fuel + 1, some u, st =>
    match net u with
    | .err => fetchLoop net lccn yearSet fuel (some u) st
    | .ok results next =>
      fetchLoop net lccn yearSet fuel next
        (results.foldl (scanStep lccn yearSet) st)

/-! ## Issue discovery: `LOCSource.fetch_issues`
(`loc_source.py` lines 52-155) -/

/-- The issue value produced by `LOCSource` discovery
(`IssueMetadata` of `sources/base.py`, fields used by `fetch_issues`). -/
structure IssueMeta where
  date : String
  edition : Nat
  url : String
  year : Nat
  lccn : String
  title : String
deriving DecidableEq

/-- Model of `process_json_data` (`loc_source.py` lines 88-116): skip
short-dated and malformed items, year-filter, parse the edition. -/
def processJsonData (lccn : String) (yearSet : List Nat)
    (results : List RawItem) : List IssueMeta :=
  results.foldl
    (fun acc item =>
      if item.date = "" || item.date.length < 8 then acc
      else
        match digitsToNat? (item.date.data.take 4) with
        | none => acc
        | some year =>
          if !(yearSet.isEmpty || yearSet.contains year) then acc
          else
            let itemUrl := if item.url ≠ "" then item.url else item.id
            if itemUrl = "" then acc
            else
              acc ++ [⟨item.date, editionOf itemUrl, itemUrl, year, lccn,
                       String.mk (stripTitle item.title.data)⟩])
    []

/-- The `(date, edition)` sort key of `loc_source.py` line 153, as a
boolean total preorder (Python tuple comparison on
`(str, int)`). -/
def dateEdLeB (a b : IssueMeta) : Bool :=
  lexLt a.date.data b.date.data ||
    (a.date == b.date && Nat.ble a.edition b.edition)

/-- Model of `LOCSource.fetch_issues`: an initial-page failure returns `[]`
(lines 76-82); otherwise the first page is parsed and the remaining pages
are fetched by a worker pool — `restPages` is the list of their per-page
parsed `results` in completion order (a failed page contributes `[]`,
lines 144-146) — and the whole list is sorted by `(date, edition)`. -/
def fetchIssuesLoc (lccn : String) (yearSet : List Nat)
    (firstResp : FetchResult) (restPages : List (List RawItem)) :
    List IssueMeta :=
  match firstResp with
  | .err => []
  | .ok results _next =>
    let init := processJsonData lccn yearSet results
    let all := init ++
      (restPages.map (processJsonData lccn yearSet)).foldl (· ++ ·) []
    sSort dateEdLeB all

/-! ## Tier-1 post-processing: `LOCTextFetcher._postprocess_loc_text`
(`ocr_engine.py` lines 41-109).  This class is declared but never
instantiated; the post-processing variant the pipeline actually invokes
for Tier-1 is `LOCSource._postprocess_loc_text`, modelled further below. -/

/-- The column-rule artifact characters of `ocr_engine.py` line 39
(`frozenset('|ijIl')`). -/
def artifactCharsOcr : List Char := ['|', 'i', 'j', 'I', 'l']

/-- A single-character line consisting of an artifact glyph
(`len(stripped) == 1 and stripped in self._ARTIFACT_CHARS`). -/
def isArtifactLineOcr (stripped : List Char) : Bool :=
  match stripped with
  | [c] => artifactCharsOcr.contains c
  | _ => false

/-- `is_heading` of `ocr_engine.py` lines 60-63: nonempty stripped line
equal to its own uppercasing and longer than 5 characters. -/
def isHeadingOcr (l : List Char) : Bool :=
  let s := pyStrip l
  !s.isEmpty && s == s.map Char.toUpper && decide (s.length > 5)

/-- The hyphen-join test on a stripped line: `re.search(r'(\w+)-$', ...)`
succeeds iff the line ends in `-` preceded by at least one word character
(`\w` = alphanumeric or underscore; ASCII here). -/
def endsHyphenWord (stripped : List Char) : Bool :=
  match stripped.reverse with
  | '-' :: c :: _ => c.isAlphanum || c == '_'
  | _ => false

/-- Since `(\w+)` is the maximal trailing word-character run and the code
emits `prefix + root + next_stripped`, the merged line is the stripped line
without its final hyphen followed by the stripped next line. -/
def mergedLine (stripped nextStripped : List Char) : List Char :=
  stripped.dropLast ++ nextStripped

/-- Last non-blank line already emitted
(`next((l for l in reversed(out) if l.strip()), None)`). -/
def lastContent (out : List (List Char)) : Option (List Char) :=
  out.reverse.find? (fun l => !(pyStrip l).isEmpty)

/-- Heading-spacing step (`ocr_engine.py` lines 94-102): append one blank
line before a heading when output is nonempty and the last non-blank
emitted line exists and is not itself a heading. -/
def headingPad (out : List (List Char)) (stripped : List Char) :
    List (List Char) :=
  if isHeadingOcr stripped && !out.isEmpty then
    match lastContent out with
    | some lc => if !isHeadingOcr lc then out ++ [[]] else out
    | none => out
  else out

/-- The `while i < len(lines)` loop of `_postprocess_loc_text`
(`ocr_engine.py` lines 68-105): drop artifact lines, join hyphenated
line breaks (consuming two input lines), and pad headings. -/
def ppLoop : List (List Char) → List (List Char) → List (List Char)
  | [], out => out
  | [line], out =>
    let stripped := pyStrip line
    if isArtifactLineOcr stripped then out
    else headingPad out stripped ++ [line]
  | line :: nxt :: rest, out =>
    let stripped := pyStrip line
    if isArtifactLineOcr stripped then ppLoop (nxt :: rest) out
    else
      let ns := pyStrip nxt
      if endsHyphenWord stripped && !ns.isEmpty &&
          (ns.headD ' ').isLower then
        ppLoop rest (out ++ [mergedLine stripped ns])
      else ppLoop (nxt :: rest) (headingPad out stripped ++ [line])

/-- Model of `re.sub(r'\n{3,}', '\n\n', s)` (`ocr_engine.py` line 108):
every maximal run of `k` newlines is replaced by `min k 2` newlines
(runs of one or two are untouched; longer runs become exactly two).
`pending` counts the newlines of the run currently being scanned. -/
def collapseNlGo : List Char → Nat → List Char
  | [], pending => List.replicate (min pending 2) '\n'
  | c :: rest, pending =>
    if c = '\n' then collapseNlGo rest (pending + 1)
    else List.replicate (min pending 2) '\n' ++ c :: collapseNlGo rest 0

/-- The blank-line collapse pass (`ocr_engine.py` line 108). -/
def collapseNl (l : List Char) : List Char := collapseNlGo l 0

/-- Model of `LOCTextFetcher._postprocess_loc_text` (`ocr_engine.py`
lines 41-109): split into lines, run the cleanup loop, join, collapse
newline runs. -/
def postprocessLocText (text : String) : String :=
  String.mk (collapseNl (joinNl (ppLoop (splitNl text.data) [])))

/-! ## Tier-1 post-processing: `LOCSource._postprocess_loc_text`
(`loc_source.py` lines 333-361).  This is the variant the pipeline invokes
at runtime: `OCRManager.process_page` calls `source.fetch_ocr_text`, which
calls this method (`loc_source.py` line 309); the `ocr_engine.py` variant
modelled above is declared but never instantiated. -/

/-- The artifact characters of `loc_source.py` line 346
(`'|iIlj[](){}<>\\/'`); the two brace characters are written by code
point. -/
def artifactCharsLoc : List Char :=
  ['|', 'i', 'I', 'l', 'j', '[', ']', '(', ')',
   Char.ofNat 123, Char.ofNat 125, '<', '>', '\\', '/']

/-- A single-character artifact line in the `loc_source.py` variant
(`len(trimmed) == 1 and trimmed in '|iIlj...'`). -/
def isArtifactLineLoc (trimmed : List Char) : Bool :=
  match trimmed with
  | [c] => artifactCharsLoc.contains c
  | _ => false

/-- Python `str.isupper()`: at least one cased character and no cased
character in lowercase (ASCII letters here, matching the data). -/
def pyIsUpper (l : List Char) : Bool :=
  l.any (fun c => c.isAlpha) && l.all (fun c => !c.isLower)

/-- The heading test of `loc_source.py` line 350: longer than 3
characters, `isupper`, and containing no digit. -/
def isHeadingLoc (trimmed : List Char) : Bool :=
  decide (trimmed.length > 3) && pyIsUpper trimmed &&
    !(trimmed.any Char.isDigit)

/-- The line loop of `LOCSource._postprocess_loc_text` (lines 340-355):
blank lines are dropped entirely (`if not trimmed: continue`), artifact
lines are dropped, and one blank separator is inserted before a heading
that does not follow another heading; skipped lines leave
`last_was_heading` unchanged. -/
def ppLoopLoc : List (List Char) → List (List Char) → Bool →
    List (List Char)
  | [], out, _ => out
  | line :: rest, out, lastWasHeading =>
    let trimmed := pyStrip line
    if trimmed.isEmpty then ppLoopLoc rest out lastWasHeading
    else if isArtifactLineLoc trimmed then ppLoopLoc rest out lastWasHeading
    else
      let isH := isHeadingLoc trimmed
      let out := if isH && !lastWasHeading && !out.isEmpty
                 then out ++ [[]] else out
      ppLoopLoc rest (out ++ [line]) isH

/-- Python regex `\w`: alphanumeric or underscore (ASCII here). -/
def isWordChar (c : Char) : Bool := c.isAlphanum || c == '_'

/-- One leftmost-match attempt of
`re.sub(r'(\w+)-\n\s*([a-z]\w*)', r'\1\2', s)` (`loc_source.py` line 359)
at the head of the list: a maximal nonempty word-character run, then `-`,
then a newline, then maximal whitespace (`\s` = `isPySpace`), then an
ASCII lowercase letter and its maximal word-character continuation.
Greedy matching is exact here because `\w`, `-`, and `\s`, `[a-z]` are
disjoint, so backtracking can never produce a different match.  Returns
the number of characters consumed and the replacement `\1\2`. -/
def hyphenMatchAt (l : List Char) : Option (Nat × List Char) :=
  let run := l.takeWhile isWordChar
  if run.isEmpty then none
  else
    match l.drop run.length with
    | '-' :: '\n' :: r2 =>
      let ws := r2.takeWhile isPySpace
      match r2.drop ws.length with
      | c :: r3 =>
        if 97 ≤ c.toNat && c.toNat ≤ 122 then
          let g2 := r3.takeWhile isWordChar
          some (run.length + 2 + ws.length + 1 + g2.length,
                run ++ c :: g2)
        else none
      | [] => none
    | _ => none

/-- The `re.sub` scan: try a match at every position left to right,
emitting the replacement and resuming after the match (the replacement is
not rescanned), or advancing one character on failure.  The fuel argument
only makes the recursion structural: every step consumes at least one
character, so `fuel = l.length` never runs out. -/
def hyphenSubGo : Nat → List Char → List Char
  | 0, l => l
  | _ + 1, [] => []
  | fuel + 1, c :: rest =>
    match hyphenMatchAt (c :: rest) with
    | some (consumed, repl) =>
      repl ++ hyphenSubGo fuel ((c :: rest).drop consumed)
    | none => c :: hyphenSubGo fuel rest

/-- Model of the hyphen-join substitution of `loc_source.py` line 359. -/
def hyphenSubLoc (l : List Char) : List Char := hyphenSubGo l.length l

/-- Model of `LOCSource._postprocess_loc_text` (`loc_source.py` lines
333-361): split into lines, run the dropping/padding loop, join, apply
the hyphen-join substitution.  Note there is no blank-line collapse step
in this variant — blank input lines were already dropped by the loop. -/
def postprocessLocSource (text : String) : String :=
  String.mk (hyphenSubLoc (joinNl (ppLoopLoc (splitNl text.data) [] false)))

/-! ## Process harness (`harness.py`) -/

/-- One poll observation of the monitor loop while the child is running:
aggregate tree memory in MB and elapsed wall-clock minutes (`harness.py`
lines 134-140).  Fractional values only shift thresholds, so naturals
suffice for the ordering facts proved here. -/
structure Poll where
  memMb : Nat
  elapsedMin : Nat

/-- Outcome of `monitor`: the boolean it returns, and whether it called
`kill_tree` on the child. -/
structure MonitorOut where
  success : Bool
  killed : Bool

/-- Model of `monitor` (`harness.py` lines 122-162): while the child runs,
each poll first checks the memory ceiling, then the timeout ceiling, and
kills the tree with a `False` result on a breach; when the child exits on
its own (poll list exhausted) the result is `returncode == 0`. -/
def monitorRun (memLimit timeoutMin : Nat) : List Poll → Int → MonitorOut
  | [], code => ⟨code == 0, false⟩
  | p :: rest, code =>
    if p.memMb > memLimit then ⟨false, true⟩
    else if p.elapsedMin > timeoutMin then ⟨false, true⟩
    else monitorRun memLimit timeoutMin rest code

/-- Model of `kill_tree(pid)` (`harness.py` lines 70-84): the set of
processes killed is `children(recursive=True) + [parent]`. -/
def killTreeSet (root : Nat) (descendants : List Nat) : List Nat :=
  descendants ++ [root]

/-- The harness and child PIDs of one supervised run. -/
structure Spawn where
  harnessPid : Nat
  childPid : Nat

/-- The PID that `main` writes to the marker file for the duration of
supervision: `write_pid(proc.pid)` (`harness.py` line 189) — the CHILD's
pid. -/
def pidfileDuring (s : Spawn) : Nat := s.childPid

/-- Model of `do_kill` (`harness.py` lines 108-116): read the marker file
and kill the tree rooted at the recorded PID (given each process's
recursive descendants). -/
def doKillTargets (pidfile : Option Nat) (desc : Nat → List Nat) :
    List Nat :=
  match pidfile with
  | none => []
  | some p => killTreeSet p (desc p)

/-! ## `LOCSource.search_titles` (`loc_source.py` lines 367-416) and the
`TitleResult` dataclass (`sources/base.py` lines 41-47) -/

/-- The `TitleResult` dataclass exactly as declared in `sources/base.py`:
fields `lccn`, `title`, `place`, `dates`, `url` — and no `thumbnail`. -/
structure TitleResult where
  lccn : String
  title : String
  place : String
  dates : String
  url : String
deriving DecidableEq

/-- The declared field names of `TitleResult`. -/
def titleResultFields : List String := ["lccn", "title", "place", "dates", "url"]

/-- Python dataclass call semantics for keyword arguments: the call raises
`TypeError` unless every keyword is a declared field. -/
def kwargsAccepted (declared kwargs : List String) : Bool :=
  kwargs.all (fun k => declared.contains k)

/-- The fields of one search-API result item read by `search_titles`. -/
structure SearchItem where
  numberLccn : List String
  partofTitle : List String
  title : String
  locationState : List String
  locationCity : List String
  date : String
  imageUrl : List String
  url : String

/-- The loop body of `search_titles` (lines 376-412): skip empty or
already-seen identifiers, compute the constructor arguments, then perform
the `TitleResult(...)` call — whose keyword list includes `thumbnail`.
An unaccepted keyword raises `TypeError`, modelled as `Except.error`. -/
def searchTitlesGo : List SearchItem → List String → List TitleResult →
    Except Unit (List TitleResult)
  | [], _, acc => .ok acc
  | item :: rest, seen, acc =>
    let lccn := item.numberLccn.headD ""
    if lccn = "" || seen.contains lccn then searchTitlesGo rest seen acc
    else
      let seen := seen ++ [lccn]
      let title := item.partofTitle.headD item.title
      let location :=
        match item.locationCity.head?, item.locationState.head? with
        | some c, some s => c ++ ", " ++ s
        | none, some s => s
        | _, _ => ""
      let thumbnail := item.imageUrl.headD ""
      let kwargs : List (String × String) :=
        [("lccn", lccn), ("title", title), ("place", location),
         ("dates", item.date), ("url", item.url), ("thumbnail", thumbnail)]
      if kwargsAccepted titleResultFields (kwargs.map Prod.fst) then
        searchTitlesGo rest seen
          (acc ++ [⟨lccn, title, location, item.date, item.url⟩])
      else .error ()

/-- Model of `LOCSource.search_titles`: an HTTP/JSON failure (`none`) or
any exception in the loop is caught by the blanket handler (lines 414-416)
and yields the empty list. -/
def searchTitles (resp : Option (List SearchItem)) : List TitleResult :=
  match resp with
  | none => []
  | some items =>
    match searchTitlesGo items [] [] with
    | .ok r => r
    | .error _ => []

/-! ## Predicates used in theorem statements -/

/-- No three consecutive newline characters occur in the list (i.e. no run
of two or more blank lines survives between content). -/
def noTripleNl : List Char → Bool
  | a :: b :: c :: rest =>
    if a = '\n' && b = '\n' && c = '\n' then false
    else noTripleNl (b :: c :: rest)
  | _ => true

/-- The mutual-exclusion invariant of the metadata store: no issue key has
both a failure entry and a `complete=true` downloaded record. -/
def InvMeta (md : Metadata) : Prop :=
  ∀ k frec drec, alookup md.failed k = some frec →
    alookup md.downloaded k = some drec → drec.complete.getD true = false

/-! ## Concrete sample states used by witnesses and counterexamples -/

/-- A well-formed PDF body: signature plus padding to the 1000-byte
minimum. -/
def pdfOkBytes : Bytes := pdfMagic ++ List.replicate 995 0

/-- A concrete issue. -/
def wIssue : IssueInput := ⟨"1900-01-01", 1, "u", 1900⟩

/-- A concrete complete downloaded record for `wIssue`. -/
def wRec : DlRec := ⟨"1900-01-01", 1, [⟨1, "f.pdf", 1000⟩], 1, 1, some true, "f.pdf"⟩

/-- Metadata holding only the complete record for `wIssue`. -/
def wMd : Metadata := ⟨[("1900-01-01_ed-1", wRec)], [], "sn1"⟩

/-- Filesystem holding the single recorded page file, valid on disk. -/
def wFs : FS := fun p => if p = "f.pdf" then some pdfOkBytes else none

/-- An arbitrary concrete environment (never consulted on the skip path). -/
def wEnv : IssueEnv := ⟨[], fun _ => .fail⟩

/-! ## Helper lemmas: filesystem and association lists -/

theorem fsSet_self (fs : FS) (p : String) (c : Bytes) : fsSet fs p c p = some c := by
  simp [fsSet]

theorem fsSet_other (fs : FS) (p q : String) (c : Bytes) (h : q ≠ p) :
    fsSet fs p c q = fs q := by
  simp [fsSet, h]

theorem fsDel_self (fs : FS) (p : String) : fsDel fs p p = none := by
  simp [fsDel]

theorem fsDel_other (fs : FS) (p q : String) (h : q ≠ p) :
    fsDel fs p q = fs q := by
  simp [fsDel, h]

theorem tempOf_ne (p : String) : tempOf p ≠ p := by
  intro h
  have hd : (p ++ ".tmp").data = p.data := congrArg String.data h
  rw [String.data_append] at hd
  have := congrArg List.length hd
  simp [List.length_append] at this

theorem alookup_aset_self (l : List (String × β)) (k : String) (v : β) :
    alookup (aset l k v) k = some v := by
  induction l with
  | nil => simp [aset, alookup]
  | cons p t ih =>
    by_cases h : p.1 = k
    · simp [aset, h, alookup]
    · simp [aset, h, alookup, ih]

theorem alookup_aset_ne (l : List (String × β)) (k k' : String) (v : β)
    (h : k' ≠ k) : alookup (aset l k v) k' = alookup l k' := by
  induction l with
  | nil => simp [aset, alookup, Ne.symm h]
  | cons p t ih =>
    obtain ⟨pk, pv⟩ := p
    by_cases hp : pk = k
    · subst hp
      simp [aset, alookup, Ne.symm h]
    · by_cases hp' : pk = k'
      · simp [aset, hp, alookup, hp', h]
      · simp [aset, hp, alookup, hp', ih]

theorem alookup_aerase_self (l : List (String × β)) (k : String) :
    alookup (aerase l k) k = none := by
  induction l with
  | nil => simp [aerase, alookup]
  | cons p t ih =>
    obtain ⟨pk, pv⟩ := p
    by_cases h : pk = k
    · simpa [aerase, List.filter, h] using ih
    · simpa [aerase, List.filter, h, alookup] using ih

theorem alookup_aerase_ne (l : List (String × β)) (k k' : String)
    (h : k' ≠ k) : alookup (aerase l k) k' = alookup l k' := by
  induction l with
  | nil => simp [aerase, alookup]
  | cons p t ih =>
    obtain ⟨pk, pv⟩ := p
    by_cases hp : pk = k
    · have h2 : pk ≠ k' := by rw [hp]; exact Ne.symm h
      simpa [aerase, List.filter, hp, alookup, h2, Ne.symm h] using ih
    · by_cases hp' : pk = k'
      · simp [aerase, List.filter, hp, alookup, hp', h]
      · simpa [aerase, List.filter, hp, alookup, hp'] using ih

/-! ## Helper lemmas: the lexicographic order and the stable sort -/

theorem lexLt_asymm : ∀ (a b : List Char), lexLt a b = true → lexLt b a = false
  | [], [], h => by simp [lexLt] at h
  | [], _ :: _, _ => by simp [lexLt]
  | _ :: _, [], h => by simp [lexLt] at h
  | x :: xs, y :: ys, h => by
    simp only [lexLt] at h ⊢
    by_cases h1 : x.toNat < y.toNat
    · have h2 : ¬ y.toNat < x.toNat := Nat.lt_asymm h1
      simp [h1, h2]
    · by_cases h2 : y.toNat < x.toNat
      · simp [h1, h2] at h
      · simp [h1, h2] at h ⊢
        exact lexLt_asymm xs ys h

theorem lexLt_or : ∀ (c a b : List Char), lexLt c a = true →
    lexLt c b = true ∨ lexLt b a = true
  | [], [], _, h => by simp [lexLt] at h
  | _ :: _, [], _, h => by simp [lexLt] at h
  | [], _ :: _, [], _ => Or.inr (by simp [lexLt])
  | [], _ :: _, _ :: _, _ => Or.inl (by simp [lexLt])
  | _ :: _, _ :: _, [], _ => Or.inr (by simp [lexLt])
  | x :: xs, y :: ys, z :: zs, h => by
    simp only [lexLt] at h ⊢
    by_cases hxz : x.toNat < z.toNat
    · exact Or.inl (by simp [hxz])
    · by_cases hxy : x.toNat < y.toNat
      · have hzy : z.toNat < y.toNat := by omega
        exact Or.inr (by simp [hzy])
      · by_cases hyx : y.toNat < x.toNat
        · simp [hxy, hyx] at h
        · by_cases hzx : z.toNat < x.toNat
          · have hzy : z.toNat < y.toNat := by omega
            exact Or.inr (by simp [hzy])
          · simp [hxy, hyx] at h
            rcases lexLt_or xs ys zs h with h' | h'
            · exact Or.inl (by simp [hxz, hzx, h'])
            · exact Or.inr (by
                have hzy : ¬ z.toNat < y.toNat := by omega
                have hyz : ¬ y.toNat < z.toNat := by omega
                simp [hzy, hyz, h'])

theorem lexLt_trans (a b c : List Char) (h1 : lexLt a b = true)
    (h2 : lexLt b c = true) : lexLt a c = true := by
  rcases lexLt_or a b c h1 with h | h
  · exact h
  · rw [lexLt_asymm _ _ h2] at h
    cases h

theorem char_eq_of_toNat_eq (a b : Char) (h : a.toNat = b.toNat) : a = b :=
  Char.eq_of_val_eq (UInt32.eq_of_toBitVec_eq (BitVec.eq_of_toNat_eq h))

theorem lexLt_connex : ∀ (a b : List Char), lexLt a b = false →
    lexLt b a = false → a = b
  | [], [], _, _ => rfl
  | [], _ :: _, h, _ => by simp [lexLt] at h
  | _ :: _, [], _, h => by simp [lexLt] at h
  | x :: xs, y :: ys, h1, h2 => by
    simp only [lexLt] at h1 h2
    by_cases hxy : x.toNat < y.toNat
    · simp [hxy] at h1
    · by_cases hyx : y.toNat < x.toNat
      · simp [hxy, hyx] at h2
      · simp [hxy, hyx] at h1 h2
        have hx : x = y := char_eq_of_toNat_eq x y (by omega)
        rw [hx, lexLt_connex xs ys h1 h2]

theorem string_eq_of_data_eq (a b : String) (h : a.data = b.data) : a = b := by
  cases a; cases b; simp_all

/-- Membership through stable insertion. -/
theorem mem_sIns (le : α → α → Bool) (a x : α) :
    ∀ l, x ∈ sIns le a l ↔ x = a ∨ x ∈ l := by
  intro l
  induction l with
  | nil => simp [sIns]
  | cons b t ih =>
    by_cases h : le a b
    · simp [sIns, h]
    · simp [sIns, h, ih]
      tauto

/-- Stable insertion preserves pairwise order, given totality and
transitivity of the boolean preorder. -/
theorem pairwise_sIns (le : α → α → Bool)
    (htot : ∀ a b, le a b = true ∨ le b a = true)
    (htrans : ∀ a b c, le a b = true → le b c = true → le a c = true)
    (a : α) : ∀ l, l.Pairwise (fun x y => le x y = true) →
    (sIns le a l).Pairwise (fun x y => le x y = true) := by
  intro l
  induction l with
  | nil => simp [sIns]
  | cons b t ih =>
    intro hp
    rcases List.pairwise_cons.mp hp with ⟨hb, ht⟩
    by_cases h : le a b
    · rw [sIns, if_pos h]
      refine List.pairwise_cons.mpr ⟨?_, hp⟩
      intro x hx
      rcases List.mem_cons.mp hx with hx | hx
      · subst hx; exact h
      · exact htrans a b x h (hb x hx)
    · rw [sIns, if_neg h]
      refine List.pairwise_cons.mpr ⟨?_, ih ht⟩
      intro x hx
      rcases (mem_sIns le a x t).mp hx with hx | hx
      · subst hx
        rcases htot x b with h' | h'
        · exact absurd h' h
        · exact h'
      · exact hb x hx

/-- The stable sort is pairwise ordered for any total transitive boolean
preorder. -/
theorem pairwise_sSort (le : α → α → Bool)
    (htot : ∀ a b, le a b = true ∨ le b a = true)
    (htrans : ∀ a b c, le a b = true → le b c = true → le a c = true) :
    ∀ l : List α, (sSort le l).Pairwise (fun x y => le x y = true) := by
  intro l
  induction l with
  | nil => simp [sSort]
  | cons a t ih => exact pairwise_sIns le htot htrans a _ ih

/-- Adjacent pairs follow from pairwise order. -/
theorem adjacentAll_of_pairwise (le : α → α → Bool) :
    ∀ l : List α, l.Pairwise (fun x y => le x y = true) →
    adjacentAll le l = true := by
  intro l
  induction l with
  | nil => simp [adjacentAll]
  | cons a t ih =>
    intro hp
    rcases List.pairwise_cons.mp hp with ⟨ha, ht⟩
    cases t with
    | nil => simp [adjacentAll]
    | cons b t2 =>
      simp only [adjacentAll, Bool.and_eq_true]
      exact ⟨ha b (by simp), ih ht⟩

theorem leDateB_total (a b : IssueInput) :
    leDateB a b = true ∨ leDateB b a = true := by
  by_cases h : lexLt b.date.data a.date.data
  · right
    simp [leDateB, lexLt_asymm _ _ h]
  · left
    simp [leDateB]
    exact Bool.not_eq_true _ ▸ (by simpa using h)

theorem leDateB_trans (a b c : IssueInput) (h1 : leDateB a b = true)
    (h2 : leDateB b c = true) : leDateB a c = true := by
  simp only [leDateB, Bool.not_eq_true'] at h1 h2 ⊢
  by_contra hca
  have hca' : lexLt c.date.data a.date.data = true := by
    cases h : lexLt c.date.data a.date.data
    · exact absurd h hca
    · rfl
  rcases lexLt_or c.date.data a.date.data b.date.data hca' with h' | h'
  · rw [h'] at h2; cases h2
  · rw [h'] at h1; cases h1

theorem dateEdLeB_total (a b : IssueMeta) :
    dateEdLeB a b = true ∨ dateEdLeB b a = true := by
  by_cases hab : lexLt a.date.data b.date.data
  · left; simp [dateEdLeB, hab]
  · by_cases hba : lexLt b.date.data a.date.data
    · right; simp [dateEdLeB, hba]
    · have hd : a.date = b.date :=
        string_eq_of_data_eq _ _
          (lexLt_connex _ _ (by simpa using hab) (by simpa using hba))
      rcases Nat.le_total a.edition b.edition with he | he
    
      · left
        simp [dateEdLeB, hd, Nat.ble_eq, he]
      · right
        simp [dateEdLeB, hd, Nat.ble_eq, he]

theorem dateEdLeB_trans (a b c : IssueMeta) (h1 : dateEdLeB a b = true)
    (h2 : dateEdLeB b c = true) : dateEdLeB a c = true := by
  simp only [dateEdLeB, Bool.or_eq_true, Bool.and_eq_true, beq_iff_eq,
    Nat.ble_eq] at h1 h2 ⊢
  rcases h1 with h1 | ⟨hd1, he1⟩
  · rcases h2 with h2 | ⟨hd2, he2⟩
    · exact Or.inl (lexLt_trans _ _ _ h1 h2)
    · exact Or.inl (hd2 ▸ h1)
  · rcases h2 with h2 | ⟨hd2, he2⟩
    · exact Or.inl (hd1 ▸ h2)
    · exact Or.inr ⟨hd1.trans hd2, Nat.le_trans he1 he2⟩

/-! ## Helper lemmas: `_is_download_verified` and `download_issue` -/

/-- When every checked page passes `_is_file_complete`, the
missing-or-corrupt scan finds nothing and deletes nothing. -/
theorem scan_all_complete (fs : FS) :
    ∀ pages : List PageEntry,
    (∀ pi ∈ pages, isFileComplete fs pi.file none = true) →
    pages.foldl scanPage ([], fs) = ([], fs) := by
  intro pages
  induction pages with
  | nil => intro _; rfl
  | cons pi rest ih =>
    intro h
    have hpi : isFileComplete fs pi.file none = true := h pi (by simp)
    have hsome : ∃ c, fs pi.file = some c := by
      cases hc : fs pi.file
      · rw [isFileComplete, hc] at hpi; cases hpi
      · exact ⟨_, rfl⟩
    rcases hsome with ⟨c, hc⟩
    have hstep : scanPage ([], fs) pi = ([], fs) := by
      simp [scanPage, hc, hpi]
    rw [List.foldl_cons, hstep]
    exact ih (fun q hq => h q (by simp [hq]))

/-- A record that exists, is not marked incomplete, and whose recorded
files all verify makes `_is_download_verified` succeed without touching
state. -/
theorem isDownloadVerified_true (md : Metadata) (fs : FS) (issueId : String)
    (rec : DlRec) (hrec : alookup md.downloaded issueId = some rec)
    (hcomp : rec.complete.getD true = true)
    (hpages : ∀ pi ∈ effPages rec, isFileComplete fs pi.file none = true) :
    isDownloadVerified md fs issueId = (true, md, fs) := by
  simp only [isDownloadVerified, hrec]
  rw [scan_all_complete fs (effPages rec) hpages]
  simp [hcomp]

/-- A failed verification leaves no `downloaded` entry for the issue. -/
theorem isDownloadVerified_false_none (md : Metadata) (fs : FS)
    (issueId : String)
    (h : (isDownloadVerified md fs issueId).1 = false) :
    alookup (isDownloadVerified md fs issueId).2.1.downloaded issueId =
      none := by
  cases hrec : alookup md.downloaded issueId with
  | none => simp [isDownloadVerified, hrec, hrec]
  | some rec =>
    rcases hfold : (effPages rec).foldl scanPage ([], fs) with ⟨bad, fsx⟩
    simp only [isDownloadVerified, hrec, hfold] at h ⊢
    cases hbad : bad.isEmpty
    · simp [hbad, alookup_aerase_self]
    · cases hcomp : rec.complete.getD true
      · simp [hbad, hcomp, alookup_aerase_self]
      · simp [hbad, hcomp] at h

/-- `_is_download_verified` never touches the `failed` map. -/
theorem isDownloadVerified_failed (md : Metadata) (fs : FS)
    (issueId : String) :
    (isDownloadVerified md fs issueId).2.1.failed = md.failed := by
  cases hrec : alookup md.downloaded issueId with
  | none => simp [isDownloadVerified, hrec]
  | some rec =>
    rcases hfold : (effPages rec).foldl scanPage ([], fs) with ⟨bad, fsx⟩
    simp only [isDownloadVerified, hrec, hfold]
    cases hbad : bad.isEmpty
    · simp [hbad]
    · cases hcomp : rec.complete.getD true
      · simp [hbad, hcomp]
      · simp [hbad, hcomp]

/-- `_is_download_verified` changes the `downloaded` map at most at the
checked key. -/
theorem isDownloadVerified_downloaded_other (md : Metadata) (fs : FS)
    (issueId k : String) (hk : k ≠ issueId) :
    alookup (isDownloadVerified md fs issueId).2.1.downloaded k =
      alookup md.downloaded k := by
  cases hrec : alookup md.downloaded issueId with
  | none => simp [isDownloadVerified, hrec]
  | some rec =>
    rcases hfold : (effPages rec).foldl scanPage ([], fs) with ⟨bad, fsx⟩
    simp only [isDownloadVerified, hrec, hfold]
    cases hbad : bad.isEmpty
    · simp [hbad, alookup_aerase_ne _ _ _ hk]
    · cases hcomp : rec.complete.getD true
      · simp [hbad, hcomp, alookup_aerase_ne _ _ _ hk]
      · simp [hbad, hcomp]

/-- A successful verification returns the metadata unchanged. -/
theorem isDownloadVerified_true_md (md : Metadata) (fs : FS)
    (issueId : String)
    (h : (isDownloadVerified md fs issueId).1 = true) :
    (isDownloadVerified md fs issueId).2.1 = md := by
  cases hrec : alookup md.downloaded issueId with
  | none => simp [isDownloadVerified, hrec]
  | some rec =>
    rcases hfold : (effPages rec).foldl scanPage ([], fs) with ⟨bad, fsx⟩
    simp only [isDownloadVerified, hrec, hfold] at h ⊢
    cases hbad : bad.isEmpty
    · simp [hbad] at h
    · cases hcomp : rec.complete.getD true
      · simp [hbad, hcomp] at h
      · simp [hbad, hcomp]

/-- `_is_download_verified` preserves the mutual-exclusion invariant. -/
theorem invMeta_isDownloadVerified (md : Metadata) (fs : FS)
    (issueId : String) (hinv : InvMeta md) :
    InvMeta (isDownloadVerified md fs issueId).2.1 := by
  intro k frec drec hf hd
  rw [isDownloadVerified_failed] at hf
  by_cases hk : k = issueId
  · subst hk
    cases hflag : (isDownloadVerified md fs k).1
    · rw [isDownloadVerified_false_none md fs k hflag] at hd
      cases hd
    · rw [isDownloadVerified_true_md md fs k hflag] at hd
      exact hinv _ _ _ hf hd
  · rw [isDownloadVerified_downloaded_other md fs issueId k hk] at hd
    exact hinv _ _ _ hf hd

/-! ## Claim C1 -/

/-- C1: Idempotent resume.  For any issue whose persisted record exists
with `complete = true` and whose recorded page files all exist on disk and
pass the integrity check, `download_issue` short-circuits: it reports
success, performs zero page-level network fetches (no `_download_file`
network access at all), and leaves both the metadata store and the
filesystem untouched. -/
theorem C1_idempotent_skip (lccn : String) (issue : IssueInput)
    (env : IssueEnv) (md : Metadata) (fs : FS) (rec : DlRec)
    (hrec : alookup md.downloaded (issueIdOf issue) = some rec)
    (hcomp : rec.complete.getD true = true)
    (hpages : ∀ pi ∈ effPages rec, isFileComplete fs pi.file none = true) :
    downloadIssue lccn issue env md fs = ⟨true, md, fs, 0⟩ := by
  simp only [downloadIssue,
    isDownloadVerified_true md fs (issueIdOf issue) rec hrec hcomp hpages]

set_option maxRecDepth 100000 in
/-- Witness for C1 at a concrete state: one complete recorded issue whose
single page file is present and valid. -/
theorem C1_idempotent_skip_witness :
    downloadIssue "sn1" wIssue wEnv wMd wFs = ⟨true, wMd, wFs, 0⟩ :=
  C1_idempotent_skip "sn1" wIssue wEnv wMd wFs wRec (by decide) (by decide)
    (by decide)

/-! ## Claim C2 -/

/-- The streaming part of `_download_file` never leaves a file at the
destination or temporary path on failure (given a clean temporary slot and
an absent destination), and on success the destination exists. -/
theorem downloadFileNet_failure_clean (oracle : String → HttpResp) (fs : FS)
    (url path : String) (hdest : fs path = none)
    (htemp : fs (tempOf path) = none) :
    ((downloadFileNet oracle fs url path).ok = false →
      (downloadFileNet oracle fs url path).fs path = none ∧
      (downloadFileNet oracle fs url path).fs (tempOf path) = none) ∧
    ((downloadFileNet oracle fs url path).ok = true →
      ((downloadFileNet oracle fs url path).fs path).isSome = true) := by
  have hne : path ≠ tempOf path := Ne.symm (tempOf_ne path)
  cases horacle : oracle url with
  | fail => simp [downloadFileNet, horacle, hdest, htemp]
  | ok isHtml chunks midErr =>
    cases isHtml with
    | true => simp [downloadFileNet, horacle, hdest, htemp]
    | false =>
      cases midErr with
      | true =>
        simp [downloadFileNet, horacle, fsDel_self,
          fsDel_other _ _ _ hne, fsSet_other _ _ _ _ hne, hdest]
      | false =>
        by_cases hlen : (chunksBytes chunks).length = 0
        · simp [downloadFileNet, horacle, hlen, fsDel_self,
            fsDel_other _ _ _ hne, fsSet_other _ _ _ _ hne, hdest]
        · simp [downloadFileNet, horacle, hlen, fsSet_self]

/-- C2 (amended): `DownloadManager._download_file` streams to a temporary
path and renames into place only on success: for every oracle and
filesystem with a clean temporary slot, a failing call leaves no file at
the destination path and none at the temporary path, and a succeeding call
leaves a file at the destination. -/
theorem C2_download_file_atomic (oracle : String → HttpResp) (fs : FS)
    (url path : String) (expectedSize : Option Nat)
    (htemp : fs (tempOf path) = none) :
    ((downloadFile oracle fs url path expectedSize).ok = false →
      (downloadFile oracle fs url path expectedSize).fs path = none ∧
      (downloadFile oracle fs url path expectedSize).fs (tempOf path) =
        none) ∧
    ((downloadFile oracle fs url path expectedSize).ok = true →
      ((downloadFile oracle fs url path expectedSize).fs path).isSome =
        true) := by
  have hne : path ≠ tempOf path := Ne.symm (tempOf_ne path)
  cases hdest : fs path with
  | none =>
    simpa [downloadFile, hdest] using
      downloadFileNet_failure_clean oracle fs url path hdest htemp
  | some c =>
    by_cases hcmpl : isFileComplete fs path expectedSize
    · simp [downloadFile, hdest, hcmpl]
    · have hdest' : fsDel fs path path = none := fsDel_self fs path
      have htemp' : fsDel fs path (tempOf path) = none := by
        rw [fsDel_other fs path (tempOf path) (tempOf_ne path)]
        exact htemp
      simpa [downloadFile, hdest, hcmpl] using
        downloadFileNet_failure_clean oracle (fsDel fs path) url path hdest'
          htemp'

/-- Witness for the amended C2 at a concrete failing call (request-level
failure on an empty filesystem). -/
theorem C2_download_file_atomic_witness :
    (downloadFile (fun _ => .fail) (fun _ => none) "u" "d.pdf" none).fs
        "d.pdf" = none ∧
    (downloadFile (fun _ => .fail) (fun _ => none) "u" "d.pdf" none).fs
        (tempOf "d.pdf") = none :=
  (C2_download_file_atomic (fun _ => .fail) (fun _ => none) "u" "d.pdf"
    none rfl).1 rfl

/-- C2 counterexample: `LOCSource.download_page_pdf` streams the body
directly to the destination path; when the stream raises after two bytes
the call reports failure but the partial file remains at the destination
path, refuting the claim for this per-page download operation. -/
theorem C2_download_page_pdf_leftover :
    (downloadPagePdf (fun _ => .ok false [[37, 80]] true) none ⟨"p", "u"⟩
        "d.pdf" (fun _ => none)).success = false ∧
    (downloadPagePdf (fun _ => .ok false [[37, 80]] true) none ⟨"p", "u"⟩
        "d.pdf" (fun _ => none)).fs "d.pdf" = some [37, 80] := by
  constructor
  · rfl
  · rfl

/-! ## Claim C3 -/

/-- C3: Harness breach and exit behaviour.  (1) If any poll while the child
runs observes aggregate tree memory above the memory ceiling or elapsed
time above the timeout ceiling, the monitor kills the process tree and
reports failure.  (2) If no poll breaches either ceiling, the monitor
never kills and reports success exactly when the child's own exit code is
zero (a clean exit with a non-zero code is failure).  (3) `kill_tree`
targets the parent process together with all of its recursive
descendants. -/
theorem C3_monitor_breach_and_exit (memLimit timeoutMin : Nat)
    (polls : List Poll) (code : Int) :
    ((∃ p ∈ polls, p.memMb > memLimit ∨ p.elapsedMin > timeoutMin) →
      (monitorRun memLimit timeoutMin polls code).success = false ∧
      (monitorRun memLimit timeoutMin polls code).killed = true) ∧
    ((∀ p ∈ polls, p.memMb ≤ memLimit ∧ p.elapsedMin ≤ timeoutMin) →
      (monitorRun memLimit timeoutMin polls code).success = (code == 0) ∧
      (monitorRun memLimit timeoutMin polls code).killed = false) ∧
    (∀ root descendants, root ∈ killTreeSet root descendants ∧
      ∀ d ∈ descendants, d ∈ killTreeSet root descendants) := by
  refine ⟨?_, ?_, ?_⟩
  · intro hbr
    induction polls with
    | nil => simp at hbr
    | cons p rest ih =>
      by_cases hm : p.memMb > memLimit
      · simp [monitorRun, hm]
      · by_cases ht : p.elapsedMin > timeoutMin
        · simp [monitorRun, hm, ht]
        · have : ∃ q ∈ rest, q.memMb > memLimit ∨ q.elapsedMin > timeoutMin := by
            rcases hbr with ⟨q, hq, hor⟩
            rcases List.mem_cons.mp hq with hq | hq
            · subst hq
              rcases hor with h | h
              · exact absurd h hm
              · exact absurd h ht
            · exact ⟨q, hq, hor⟩
          simpa [monitorRun, hm, ht] using ih this
  · intro hok
    induction polls with
    | nil => simp [monitorRun]
    | cons p rest ih =>
      have hp := hok p (by simp)
      have hm : ¬ p.memMb > memLimit := by omega
      have ht : ¬ p.elapsedMin > timeoutMin := by omega
      simpa [monitorRun, hm, ht] using
        ih (fun q hq => hok q (by simp [hq]))
  · intro root descendants
    constructor
    · simp [killTreeSet]
    · intro d hd
      simp [killTreeSet, hd]

/-- Witness for C3: a memory-breaching poll is killed with failure, and a
clean zero-exit run with in-limit polls succeeds without killing. -/
theorem C3_monitor_breach_and_exit_witness :
    ((monitorRun 5 10 [⟨9, 0⟩] 0).success = false ∧
      (monitorRun 5 10 [⟨9, 0⟩] 0).killed = true) ∧
    ((monitorRun 5 10 [⟨3, 2⟩] 0).success = true ∧
      (monitorRun 5 10 [⟨3, 2⟩] 0).killed = false) ∧
    ((monitorRun 5 10 [⟨3, 2⟩] 7).success = false) :=
  ⟨(C3_monitor_breach_and_exit 5 10 [⟨9, 0⟩] 0).1
      ⟨⟨9, 0⟩, by simp, by simp⟩,
   by
    have h := (C3_monitor_breach_and_exit 5 10 [⟨3, 2⟩] 0).2.1
      (by intro p hp; simp at hp; subst hp; constructor <;> decide)
    simpa using h,
   by
    have h := (C3_monitor_breach_and_exit 5 10 [⟨3, 2⟩] 7).2.1
      (by intro p hp; simp at hp; subst hp; constructor <;> decide)
    simpa using h.1⟩

/-! ## Claim C4 -/

/-- C4 counterexample: at the concrete supervised run with harness PID 100
and child PID 200 (child descendants 201, 202), the marker file holds 200 —
the child's PID, not the harness's own — and the `--kill` invocation rooted
at the recorded PID does not kill the supervisor. -/
theorem C4_pidfile_holds_child_pid :
    pidfileDuring ⟨100, 200⟩ = 200 ∧
    pidfileDuring ⟨100, 200⟩ ≠ 100 ∧
    (100 : Nat) ∉ doKillTargets (some (pidfileDuring ⟨100, 200⟩))
      (fun p => if p = 200 then [201, 202] else []) := by
  refine ⟨rfl, by decide, by decide⟩

/-- C4 (amended): the marker file holds the CHILD's process id for the
duration of supervision (`write_pid(proc.pid)`), so a separate `--kill`
invocation kills the process tree rooted at the child — the child and all
its descendants — but not the supervisor itself (the supervisor is the
child's parent, not part of that tree). -/
theorem C4_pidfile_child_tree (s : Spawn) (desc : Nat → List Nat) :
    pidfileDuring s = s.childPid ∧
    s.childPid ∈ doKillTargets (some (pidfileDuring s)) desc ∧
    (∀ d ∈ desc s.childPid,
      d ∈ doKillTargets (some (pidfileDuring s)) desc) ∧
    (s.harnessPid ≠ s.childPid → s.harnessPid ∉ desc s.childPid →
      s.harnessPid ∉ doKillTargets (some (pidfileDuring s)) desc) := by
  refine ⟨rfl, ?_, ?_, ?_⟩
  · simp [doKillTargets, killTreeSet, pidfileDuring]
  · intro d hd
    simp [doKillTargets, killTreeSet, pidfileDuring, hd]
  · intro hne hnd
    simp [doKillTargets, killTreeSet, pidfileDuring, hne, hnd]

/-- Witness for the amended C4 at the concrete run of the counterexample
setup. -/
theorem C4_pidfile_child_tree_witness :
    (200 : Nat) ∈ doKillTargets (some (pidfileDuring ⟨100, 200⟩))
        (fun p => if p = 200 then [201, 202] else []) ∧
    (100 : Nat) ∉ doKillTargets (some (pidfileDuring ⟨100, 200⟩))
        (fun p => if p = 200 then [201, 202] else []) :=
  ⟨(C4_pidfile_child_tree ⟨100, 200⟩ _).2.1,
   (C4_pidfile_child_tree ⟨100, 200⟩ _).2.2.2 (by decide) (by decide)⟩

/-! ## Claim C5 -/

/-- C5 (code-bug evidence): in `_fetch_newspaper_issues` the `except`
branches `continue` without advancing `api_url`, so under a persistently
failing fetch of the current discovery page the `while api_url:` loop
re-requests the same URL forever: for every finite iteration budget the
loop is still running (it never reaches the sorted-return exit), instead of
converting the failure into an empty result for that page and returning
the issues gathered so far. -/
theorem C5_discovery_retries_same_page_forever (lccn : String)
    (yearSet : List Nat) (u : String) (st : ScanState) :
    ∀ fuel : Nat,
      fetchLoop (fun _ => .err) lccn yearSet fuel (some u) st = none := by
  intro fuel
  induction fuel with
  | zero => rfl
  | succ n ih => simpa [fetchLoop] using ih

/-! ## Claim C6 -/

/-- C6 counterexample: with the canonical metadata file missing and a
parseable backup present, `_load_metadata` returns the fresh empty state,
not the backup's state — the backup is consulted only when the canonical
file exists and fails to load. -/
theorem C6_missing_file_ignores_backup :
    loadMetadata .absent (.parsed wMd) "sn1" = freshMeta "sn1" ∧
    loadMetadata .absent (.parsed wMd) "sn1" ≠ wMd := by
  exact ⟨rfl, by decide⟩

/-- C6 (amended): loading never aborts; a parsed canonical file is
returned as-is; an existing-but-corrupt canonical file falls back to the
backup when that parses and to the fresh empty state otherwise; a MISSING
canonical file yields the fresh empty state directly without consulting
the backup; and the fresh state has empty `downloaded` and `failed`
maps. -/
theorem C6_load_metadata_fallback (backup : FileRead) (st : Metadata)
    (lccn : String) :
    loadMetadata (.parsed st) backup lccn = st ∧
    loadMetadata .corrupt (.parsed st) lccn = st ∧
    loadMetadata .corrupt .corrupt lccn = freshMeta lccn ∧
    loadMetadata .corrupt .absent lccn = freshMeta lccn ∧
    loadMetadata .absent backup lccn = freshMeta lccn ∧
    (freshMeta lccn).downloaded = [] ∧ (freshMeta lccn).failed = [] := by
  refine ⟨rfl, rfl, rfl, rfl, ?_, rfl, rfl⟩
  cases backup <;> rfl

/-! ## Claim C7 -/

/-- A successful verification implies a recorded entry whose `complete`
flag reads true. -/
theorem isDownloadVerified_true_complete (md : Metadata) (fs : FS)
    (issueId : String)
    (h : (isDownloadVerified md fs issueId).1 = true) :
    ∃ rec, alookup md.downloaded issueId = some rec ∧
      rec.complete.getD true = true := by
  cases hrec : alookup md.downloaded issueId with
  | none => simp [isDownloadVerified, hrec] at h
  | some rec =>
    rcases hfold : (effPages rec).foldl scanPage ([], fs) with ⟨bad, fsx⟩
    simp only [isDownloadVerified, hrec, hfold] at h
    cases hbad : bad.isEmpty
    · simp [hbad] at h
    · cases hcomp : rec.complete.getD true
      · simp [hbad, hcomp] at h
      · exact ⟨rec, rfl, hcomp⟩

/-- C7: Mutual exclusion of failure entries and complete records.  If the
metadata entering a `download_issue` call has no issue key with both a
failure entry and a `complete=true` downloaded record, then after the call
(1) that mutual exclusion still holds for every key, (2) on a successful
call no failure entry remains for the processed issue, and (3) on a failed
call no downloaded record at all remains for the processed issue. -/
theorem C7_failed_complete_exclusive (lccn : String) (issue : IssueInput)
    (env : IssueEnv) (md : Metadata) (fs : FS) (hinv : InvMeta md) :
    InvMeta (downloadIssue lccn issue env md fs).md ∧
    ((downloadIssue lccn issue env md fs).ok = true →
      alookup (downloadIssue lccn issue env md fs).md.failed
        (issueIdOf issue) = none) ∧
    ((downloadIssue lccn issue env md fs).ok = false →
      alookup (downloadIssue lccn issue env md fs).md.downloaded
        (issueIdOf issue) = none) := by
  rcases hv : isDownloadVerified md fs (issueIdOf issue) with ⟨flag, md1, fs1⟩
  have hinv1 : InvMeta md1 := by
    have := invMeta_isDownloadVerified md fs (issueIdOf issue) hinv
    rwa [hv] at this
  cases flag with
  | true =>
    have hmd1 : md1 = md := by
      have := isDownloadVerified_true_md md fs (issueIdOf issue)
        (by rw [hv])
      rwa [hv] at this
    rcases isDownloadVerified_true_complete md fs (issueIdOf issue)
      (by rw [hv]) with ⟨rec, hrec, hcomp⟩
    have hnofail : alookup md.failed (issueIdOf issue) = none := by
      cases hf : alookup md.failed (issueIdOf issue) with
      | none => rfl
      | some frec =>
        have := hinv (issueIdOf issue) frec rec hf hrec
        rw [hcomp] at this
        cases this
    have hres : downloadIssue lccn issue env md fs = ⟨true, md1, fs1, 0⟩ := by
      simp [downloadIssue, hv]
    rw [hres]
    exact ⟨hmd1 ▸ hinv, fun _ => hmd1 ▸ hnofail, by simp⟩
  | false =>
    have hnone : alookup md1.downloaded (issueIdOf issue) = none := by
      have := isDownloadVerified_false_none md fs (issueIdOf issue)
        (by rw [hv])
      rwa [hv] at this
    cases hempty : env.pdfFiles.isEmpty with
    | true =>
      have hres : downloadIssue lccn issue env md fs =
          ⟨false,
           { md1 with failed := (aset md1.failed (issueIdOf issue)
               ⟨issue.date, issue.edition, "no_pdf_files_found"⟩) },
           fs1, 0⟩ := by
        simp [downloadIssue, hv, hempty]
      rw [hres]
      refine ⟨?_, by simp, fun _ => hnone⟩
      intro k frec drec hf hd
      by_cases hk : k = issueIdOf issue
      · subst hk
        rw [hnone] at hd
        cases hd
      · rw [alookup_aset_ne _ _ _ _ hk] at hf
        exact hinv1 k frec drec hf hd
    | false =>
      rcases hfold : env.pdfFiles.foldl
          (downloadPageStep lccn issue env.oracle) (fs1, [], true, 0) with
        ⟨fs2, pages, allOk, fetches⟩
      cases hpages : pages.isEmpty with
      | true =>
        have hres : downloadIssue lccn issue env md fs =
            ⟨false,
             { md1 with failed := (aset md1.failed (issueIdOf issue)
                 ⟨issue.date, issue.edition, "all_page_downloads_failed"⟩) },
             fs2, fetches⟩ := by
          simp [downloadIssue, hv, hempty, hfold, hpages]
        rw [hres]
        refine ⟨?_, by simp, fun _ => hnone⟩
        intro k frec drec hf hd
        by_cases hk : k = issueIdOf issue
        · subst hk
          rw [hnone] at hd
          cases hd
        · rw [alookup_aset_ne _ _ _ _ hk] at hf
          exact hinv1 k frec drec hf hd
      | false =>
        have hres : downloadIssue lccn issue env md fs =
            ⟨true,
             { md1 with
                 downloaded := (aset md1.downloaded (issueIdOf issue)
                   ⟨issue.date, issue.edition, pages, env.pdfFiles.length,
                    pages.length, some allOk,
                    ((pages.head?.map PageEntry.file).getD "")⟩),
                 failed := aerase md1.failed (issueIdOf issue) },
             fs2, fetches⟩ := by
          simp [downloadIssue, hv, hempty, hfold, hpages]
        rw [hres]
        refine ⟨?_, fun _ => by simp [alookup_aerase_self], by simp⟩
        intro k frec drec hf hd
        by_cases hk : k = issueIdOf issue
        · subst hk
          rw [alookup_aerase_self] at hf
          cases hf
        · rw [alookup_aerase_ne _ _ _ hk] at hf
          rw [alookup_aset_ne _ _ _ _ hk] at hd
          exact hinv1 k frec drec hf hd

/-- Witness for C7 at a concrete state: a fresh empty store trivially
satisfies the invariant, and the conclusions hold after a concrete failed
call (no PDFs found). -/
theorem C7_failed_complete_exclusive_witness :
    InvMeta (downloadIssue "sn1" wIssue wEnv (freshMeta "sn1")
      (fun _ => none)).md ∧
    alookup (downloadIssue "sn1" wIssue wEnv (freshMeta "sn1")
      (fun _ => none)).md.downloaded (issueIdOf wIssue) = none := by
  have hinv0 : InvMeta (freshMeta "sn1") := by
    intro k frec drec hf _
    simp [freshMeta, alookup] at hf
  have h := C7_failed_complete_exclusive "sn1" wIssue wEnv (freshMeta "sn1")
    (fun _ => none) hinv0
  exact ⟨h.1, h.2.2 (by decide)⟩

/-! ## Claim C8 -/

/-- Every issue list the downloader pagination loop returns is sorted by
its date-only key. -/
theorem fetchLoop_sorted (net : String → FetchResult) (lccn : String)
    (yearSet : List Nat) :
    ∀ (fuel : Nat) (url : Option String) (st : ScanState)
      (res : List IssueInput),
      fetchLoop net lccn yearSet fuel url st = some res →
      adjacentAll leDateB res = true := by
  intro fuel
  induction fuel with
  | zero =>
    intro url st res h
    cases url with
    | none =>
      rw [fetchLoop] at h
      cases h
      exact adjacentAll_of_pairwise leDateB _
        (pairwise_sSort leDateB leDateB_total leDateB_trans st.issues)
    | some u => cases h
  | succ n ih =>
    intro url st res h
    cases url with
    | none =>
      rw [fetchLoop] at h
      cases h
      exact adjacentAll_of_pairwise leDateB _
        (pairwise_sSort leDateB leDateB_total leDateB_trans st.issues)
    | some u =>
      rw [fetchLoop] at h
      cases hnet : net u with
      | err =>
        rw [hnet] at h
        exact ih (some u) st res h
      | ok results next =>
        rw [hnet] at h
        exact ih next _ res h

/-- C8 counterexample: for a discovery page returning the same date with
edition 2 before edition 1, `_fetch_newspaper_issues` (which sorts by date
only, stably) returns the editions out of order, so adjacent positions
violate the claimed `(date, edition)` ascending order. -/
theorem C8_downloader_date_only_sort :
    fetchLoop
        (fun _ => .ok
          [⟨"1900-01-01", "", "/item/sn1/1900-01-01/ed-2/", ""⟩,
           ⟨"1900-01-01", "", "/item/sn1/1900-01-01/ed-1/", ""⟩] none)
        "sn1" [] 1 (some "q") ⟨"sn1", []⟩ =
      some [⟨"1900-01-01", 2, "/item/sn1/1900-01-01/ed-2/", 1900⟩,
            ⟨"1900-01-01", 1, "/item/sn1/1900-01-01/ed-1/", 1900⟩] ∧
    adjacentAll dateEdLeI
      [⟨"1900-01-01", 2, "/item/sn1/1900-01-01/ed-2/", 1900⟩,
       ⟨"1900-01-01", 1, "/item/sn1/1900-01-01/ed-1/", 1900⟩] = false := by
  constructor
  · decide
  · decide

/-- C8 (amended): `LOCSource.fetch_issues` returns issues sorted ascending
by `(date, edition)` for every input, while
`DownloadManager._fetch_newspaper_issues` sorts by date only — every list
it returns is ascending by date, with same-date editions left in API
order. -/
theorem C8_discovery_sorted (lccn : String) (yearSet : List Nat)
    (firstResp : FetchResult) (restPages : List (List RawItem))
    (net : String → FetchResult) (fuel : Nat) (url : Option String)
    (st : ScanState) (res : List IssueInput)
    (h : fetchLoop net lccn yearSet fuel url st = some res) :
    adjacentAll dateEdLeB (fetchIssuesLoc lccn yearSet firstResp restPages) =
      true ∧
    adjacentAll leDateB res = true := by
  constructor
  · cases firstResp with
    | err => rfl
    | ok results next =>
      exact adjacentAll_of_pairwise dateEdLeB _
        (pairwise_sSort dateEdLeB dateEdLeB_total dateEdLeB_trans _)
  · exact fetchLoop_sorted net lccn yearSet fuel url st res h

/-- Witness for the amended C8 at a concrete discovery run. -/
theorem C8_discovery_sorted_witness :
    adjacentAll dateEdLeB (fetchIssuesLoc "sn1" [] .err []) = true ∧
    adjacentAll leDateB ([] : List IssueInput) = true :=
  C8_discovery_sorted "sn1" [] .err [] (fun _ => .ok [] none) 1 (some "q")
    ⟨"sn1", []⟩ [] (by decide)

/-! ## Claim C9 -/

theorem noTripleNl_cons (c : Char) (t : List Char) (hc : c ≠ '\n') :
    noTripleNl (c :: t) = noTripleNl t := by
  cases t with
  | nil => simp [noTripleNl]
  | cons x t2 =>
    cases t2 with
    | nil => simp [noTripleNl]
    | cons y t3 => simp [noTripleNl, hc]

theorem noTripleNl_pad (m : Nat) (hm : m ≤ 2) (c : Char) (hc : c ≠ '\n')
    (t : List Char) :
    noTripleNl (List.replicate m '\n' ++ c :: t) = noTripleNl (c :: t) := by
  have h3 : m = 0 ∨ m = 1 ∨ m = 2 := by omega
  rcases h3 with h | h | h <;> subst h
  · simp
  · cases t with
    | nil => simp [noTripleNl]
    | cons x t2 => simp [noTripleNl, hc]
  · cases t with
    | nil => simp [noTripleNl, hc]
    | cons x t2 => simp [noTripleNl, hc]

/-- The newline-collapse pass never leaves three consecutive newlines. -/
theorem noTripleNl_collapseGo :
    ∀ (l : List Char) (pending : Nat),
      noTripleNl (collapseNlGo l pending) = true := by
  intro l
  induction l with
  | nil =>
    intro pending
    have h3 : min pending 2 = 0 ∨ min pending 2 = 1 ∨ min pending 2 = 2 := by
      omega
    rcases h3 with h | h | h <;> simp [collapseNlGo, h, noTripleNl]
  | cons c rest ih =>
    intro pending
    by_cases hc : c = '\n'
    · subst hc
      simpa [collapseNlGo] using ih (pending + 1)
    · simp only [collapseNlGo, if_neg hc]
      rw [noTripleNl_pad (min pending 2) (by omega) c hc,
        noTripleNl_cons c _ hc]
      exact ih 0

/-- The `loc_source.py` loop emits no blank line when the input contains
no heading-like line and the accumulated output has none: blank input
lines are dropped by `if not trimmed: continue`, and the only blank the
loop can emit is the separator inserted before a heading. -/
theorem ppLoopLoc_no_blank :
    ∀ (lines out : List (List Char)) (lastH : Bool),
      (∀ l ∈ lines, isHeadingLoc (pyStrip l) = false) →
      (∀ l ∈ out, (pyStrip l).isEmpty = false) →
      ∀ l ∈ ppLoopLoc lines out lastH, (pyStrip l).isEmpty = false := by
  intro lines
  induction lines with
  | nil =>
    intro out lastH _ hout
    simpa [ppLoopLoc] using hout
  | cons line rest ih =>
    intro out lastH hhead hout
    have hline := hhead line (by simp)
    have hrest : ∀ l ∈ rest, isHeadingLoc (pyStrip l) = false :=
      fun l hl => hhead l (by simp [hl])
    by_cases hb : (pyStrip line).isEmpty
    · simpa [ppLoopLoc, hb] using ih out lastH hrest hout
    · by_cases ha : isArtifactLineLoc (pyStrip line)
      · simpa [ppLoopLoc, hb, ha] using ih out lastH hrest hout
      · have hstep : ppLoopLoc (line :: rest) out lastH =
            ppLoopLoc rest (out ++ [line]) (isHeadingLoc (pyStrip line)) := by
          simp [ppLoopLoc, hb, ha, hline]
        rw [hstep]
        refine ih (out ++ [line]) _ hrest ?_
        intro l hl
        rcases List.mem_append.mp hl with hl | hl
        · exact hout l hl
        · rcases List.mem_singleton.mp hl with rfl
          simpa using hb

/-- C9 counterexample: at concrete inputs, BOTH cited Tier-1
post-processing implementations refute the claim.  In
`LOCSource._postprocess_loc_text` — the implementation the pipeline
invokes for Tier-1 — a run of three consecutive blank lines is removed
entirely (collapsed to zero blank lines, not to exactly one).  In
`LOCTextFetcher._postprocess_loc_text` the input `"a\n\n\nb"` contains a
run of exactly two consecutive blank lines (fewer than three), yet it is
collapsed to a single blank line, because `re.sub(r'\n{3,}', '\n\n', s)`
already fires on two blank lines. -/
theorem C9_two_blank_run_collapsed :
    postprocessLocSource "a\n\n\n\nb" = "a\nb" ∧
    ("a\nb" : String) ≠ "a\n\nb" ∧
    postprocessLocText "a\n\n\nb" = "a\n\nb" ∧
    ("a\n\n\nb" : String) ≠ "a\n\nb" := by
  exact ⟨by decide, by decide, by decide, by decide⟩

/-- C9 (amended): the two Tier-1 post-processing implementations treat
blank-line runs differently, and neither matches the claim as stated.
In `LOCTextFetcher._postprocess_loc_text` (`ocr_engine.py`), every run of
TWO or more consecutive blank lines is collapsed to exactly one blank
line — no output ever contains three consecutive newlines, a run of three
blank lines becomes exactly one, and a single blank line is preserved.
In `LOCSource._postprocess_loc_text` (`loc_source.py`), the variant
invoked at runtime via `fetch_ocr_text`, blank input lines are dropped
entirely: a run of three blank lines and a single blank line both
collapse to zero blank lines, and on heading-free input the line loop
emits no blank line at all (its only blank output is the separator
inserted before a heading). -/
theorem C9_blank_collapse (text : String) :
    noTripleNl (postprocessLocText text).data = true ∧
    postprocessLocText "a\n\n\n\nb" = "a\n\nb" ∧
    postprocessLocText "a\n\nb" = "a\n\nb" ∧
    postprocessLocSource "a\n\n\n\nb" = "a\nb" ∧
    postprocessLocSource "a\n\nb" = "a\nb" ∧
    (∀ lines : List (List Char),
      (∀ l ∈ lines, isHeadingLoc (pyStrip l) = false) →
      ∀ l ∈ ppLoopLoc lines [] false, (pyStrip l).isEmpty = false) := by
  refine ⟨noTripleNl_collapseGo _ 0, by decide, by decide, by decide,
    by decide, ?_⟩
  intro lines hhead
  exact ppLoopLoc_no_blank lines [] false hhead (by simp)

/-- Witness for the amended C9: the heading-free hypotheses discharged at
a concrete three-line input. -/
theorem C9_blank_collapse_witness :
    postprocessLocSource "a\n\nb" = "a\nb" ∧
    (pyStrip ['a']).isEmpty = false :=
  ⟨(C9_blank_collapse "x").2.2.2.2.1,
   (C9_blank_collapse "x").2.2.2.2.2 [['a'], [], ['b']] (by decide)
     ['a'] (by decide)⟩

/-! ## Claim C10 -/

/-- The `search_titles` loop raises `TypeError` (modelled as
`Except.error`) as soon as it reaches any item with a non-empty, unseen
identifier, because the `TitleResult(...)` call passes the undeclared
`thumbnail` keyword. -/
theorem searchTitlesGo_error :
    ∀ (items : List SearchItem) (acc : List TitleResult),
      (∃ it ∈ items, it.numberLccn.headD "" ≠ "") →
      searchTitlesGo items [] acc = .error () := by
  intro items
  induction items with
  | nil =>
    intro acc h
    simp at h
  | cons item rest ih =>
    intro acc h
    by_cases hl : item.numberLccn.headD "" = ""
    · have hl2 : item.numberLccn.head?.getD "" = "" := by simpa using hl
      have hrest : ∃ it ∈ rest, it.numberLccn.headD "" ≠ "" := by
        rcases h with ⟨it, hit, hne⟩
        rcases List.mem_cons.mp hit with hit | hit
        · subst hit
          exact absurd hl hne
        · exact ⟨it, hit, hne⟩
      simpa [searchTitlesGo, hl2] using ih acc hrest
    · have hl2 : ¬ item.numberLccn.head?.getD "" = "" := by simpa using hl
      have hkw : kwargsAccepted titleResultFields
          ["lccn", "title", "place", "dates", "url", "thumbnail"] = false := by
        decide
      simp [searchTitlesGo, hl2, hkw]

/-- C10: whenever the search API response parses and contains at least one
result whose `number_lccn` list yields a non-empty identifier,
`LOCSource.search_titles` returns the empty list: the first `TitleResult`
construction passes the undeclared `thumbnail` keyword, the `TypeError` is
caught by the method's blanket handler, and `[]` is returned in place of
the results. -/
theorem C10_search_titles_empty (items : List SearchItem)
    (h : ∃ it ∈ items, it.numberLccn.headD "" ≠ "") :
    searchTitles (some items) = [] := by
  simp [searchTitles, searchTitlesGo_error items [] h]

/-- Witness for C10 at a concrete one-result response. -/
theorem C10_search_titles_empty_witness :
    searchTitles (some [⟨["sn1"], [], "T", [], [], "1900", [], "u"⟩]) = [] :=
  C10_search_titles_empty [⟨["sn1"], [], "T", [], [], "1900", [], "u"⟩]
    ⟨⟨["sn1"], [], "T", [], [], "1900", [], "u"⟩, by simp, by decide⟩
